import Mathlib

/-!
Verification development for the Antigravity fetch layer of oh-my-opencode:
`src/auth/antigravity/fetch.ts`, `src/auth/antigravity/response.ts` and the
request transformer (`src/auth/antigravity/request.ts`).

The TypeScript sources are shallowly embedded: JavaScript values flowing
through `JSON.parse` / `JSON.stringify` are modelled by the inductive `Json`
(with integer numerals; fractional/exponent JSON numerals, `\uXXXX` string
escapes and non-ASCII case folding are outside the modelled subset), the
`Response` / `Headers` web types by plain structures, `try`/`catch` by
`Option`/`Except`, and the external collaborators (token store, token
refresh, project lookup, tool normalizer, thinking extractor, the real
network `fetch`) by explicit function parameters bundled in `FetchEnv`.
-/

namespace Antigravity

/-! ## JSON values

JavaScript values produced by `JSON.parse`.  Objects are ordered key/value
lists; the parser collapses duplicate keys the way JavaScript object
construction does (later assignment wins, original position kept). -/

inductive Json where
  | null : Json
  | bool : Bool → Json
  | num : Int → Json
  | str : String → Json
  | arr : List Json → Json
  | obj : List (String × Json) → Json
deriving Repr, Inhabited

/-- Association lookup (first match). -/
def alookup (kvs : List (String × Json)) (k : String) : Option Json :=
  match kvs with
  | [] => none
  | kv :: rest => if kv.1 == k then some kv.2 else alookup rest k

/-- JavaScript property read `j.k`: `undefined` (here `none`) unless `j` is
an object with key `k`.  A present-but-`null` field yields `some .null`. -/
def jget (j : Json) (k : String) : Option Json :=
  match j with
  | .obj kvs => alookup kvs k
  | _ => none

/-- JavaScript `delete o[k]` (association lists built by this layer never
carry duplicate keys, so removing every occurrence is the removal of the one
own property). -/
def jsDelete (kvs : List (String × Json)) (k : String) : List (String × Json) :=
  match kvs with
  | [] => []
  | kv :: rest => if kv.1 == k then jsDelete rest k else kv :: jsDelete rest k

/-- JavaScript assignment `o[k] = v` on an object: replaces the value in
place when the key exists, appends otherwise. -/
def jinsert (kvs : List (String × Json)) (k : String) (v : Json) : List (String × Json) :=
  match kvs with
  | [] => [(k, v)]
  | kv :: rest => if kv.1 == k then (k, v) :: rest else kv :: jinsert rest k v

/-- JavaScript assignment on a `Json` object (no-op on non-objects, matching
the call sites, which only assign on parsed objects). -/
def jset (j : Json) (k : String) (v : Json) : Json :=
  match j with
  | .obj kvs => .obj (jinsert kvs k v)
  | _ => j

/-- JavaScript truthiness of a `Json` value (`undefined` handled by callers). -/
def jsTruthy : Json → Bool
  | .null => false
  | .bool b => b
  | .num n => n != 0
  | .str s => s != ""
  | .arr _ => true
  | .obj _ => true

/-- Spread `{...j}` of a JavaScript value: objects give their entries, arrays
and strings give index-keyed entries, primitives give nothing. -/
def jsSpread : Json → List (String × Json)
  | .obj kvs => kvs
  | .arr xs => (xs.enum.map (fun xi => (toString xi.1, xi.2)))
  | .str s => (s.data.enum.map (fun ci => (toString ci.1, Json.str (String.mk [ci.2]))))
  | _ => []

/-! ## JavaScript string primitives -/

/-- Whitespace recognised by `trim` / `parseFloat` / `parseInt` (ASCII subset). -/
def jsWs (c : Char) : Bool :=
  c = ' ' ∨ c = '\t' ∨ c = '\n' ∨ c = '\r'

/-- `String.prototype.trim` (ASCII whitespace subset). -/
def jsTrim (s : String) : String :=
  String.mk (((s.data.dropWhile jsWs).reverse.dropWhile jsWs).reverse)

/-- `String.prototype.startsWith`. -/
def jsStartsWith (s pre : String) : Bool :=
  pre.data.isPrefixOf s.data

/-- `String.prototype.slice(n)` (non-negative start). -/
def jsSlice (s : String) (n : Nat) : String :=
  String.mk (s.data.drop n)

/-- `String.prototype.split("\n")` on character lists: JavaScript `split`
with a one-character separator (keeps empty segments, `"" → [""]`). -/
def charSplit : List Char → List (List Char)
  | [] => [[]]
  | '\n' :: rest => [] :: charSplit rest
  | c :: rest =>
    match charSplit rest with
    | [] => [[c]]
    | l :: ls => (c :: l) :: ls

/-- `String.prototype.includes` on character lists. -/
def listContains (hay needle : List Char) : Bool :=
  match hay with
  | [] => needle.isEmpty
  | _ :: rest => needle.isPrefixOf hay || listContains rest needle

/-- `String.prototype.includes`. -/
def jsIncludes (s sub : String) : Bool :=
  listContains s.data sub.data

/-- ASCII lowercase of a string (HTTP header names are ASCII). -/
def asciiLower (s : String) : String :=
  String.mk (s.data.map Char.toLower)

/-- Digit run → natural value. -/
def digitsToNat (cs : List Char) : Nat :=
  cs.foldl (fun acc c => acc * 10 + (c.toNat - '0'.toNat)) 0

/-- `parseInt(s, 10)`: skip whitespace, optional sign, leading digit run;
`NaN` (here `none`) when no digit is found. -/
def jsParseInt (s : String) : Option Int :=
  let cs := s.data.dropWhile jsWs
  let (sign, cs) : Int × List Char :=
    match cs with
    | '-' :: rest => (-1, rest)
    | '+' :: rest => (1, rest)
    | _ => (1, cs)
  let digits := cs.takeWhile Char.isDigit
  if digits.isEmpty then none else some (sign * (digitsToNat digits : Int))

/-- Powers of ten. -/
def pow10 : Nat → Nat
  | 0 => 1
  | n + 1 => 10 * pow10 n

/-- An exact decimal `m / 10^k`, the value of a JavaScript decimal numeral. -/
structure Dec where
  m : Int
  k : Nat
deriving Repr, DecidableEq

/-- `parseFloat(s)`: skip whitespace, optional sign, leading decimal numeral
`digits [. digits]`; `NaN` (here `none`) when no digit is found.  Exponent
notation is outside the modelled subset.  Values are exact decimals; at
every decimal this layer sees (`"2"`, `"5.123"`, …) the IEEE-754 double
computed by JavaScript rounds `seconds * 1000` to the same integer the exact
model yields. -/
def jsParseFloat (s : String) : Option Dec :=
  let cs := s.data.dropWhile jsWs
  let (sign, cs) : Int × List Char :=
    match cs with
    | '-' :: rest => (-1, rest)
    | '+' :: rest => (1, rest)
    | _ => (1, cs)
  let intDigits := cs.takeWhile Char.isDigit
  let rest := cs.drop intDigits.length
  let fracDigits :=
    match rest with
    | '.' :: r2 => r2.takeWhile Char.isDigit
    | _ => []
  if intDigits.isEmpty ∧ fracDigits.isEmpty then none
  else
    some { m := sign * ((digitsToNat intDigits * pow10 fracDigits.length +
                         digitsToNat fracDigits : Nat) : Int)
           k := fracDigits.length }

/-- `⌈a / b⌉` for `b > 0`, in integer arithmetic. -/
def ceilDiv (a : Int) (b : Int) : Int :=
  Int.fdiv (a + b - 1) b

/-- `Math.ceil(d * 1000)` for an exact decimal `d`. -/
def ceilMul1000 (d : Dec) : Int :=
  ceilDiv (d.m * 1000) (pow10 d.k : Int)

mutual

/-- `String(x)` conversion of a `Json` value (array elements join with `,`,
with `null` elements printing empty; objects print as `[object Object]`,
as in JavaScript). -/
def jsString : Json → String
  | .null => "null"
  | .bool true => "true"
  | .bool false => "false"
  | .num n => toString n
  | .str s => s
  | .obj _ => "[object Object]"
  | .arr xs => String.intercalate "," (jsStringElems xs)

/-- Array elements under `String(x)`: `null` renders empty. -/
def jsStringElems : List Json → List String
  | [] => []
  | .null :: xs => "" :: jsStringElems xs
  | x :: xs => jsString x :: jsStringElems xs

end

/-! ## JSON text: parser and serializer

`JSON.parse` is modelled by a fuel-indexed recursive-descent parser returning
`none` where JavaScript would throw a `SyntaxError` (every `catch` around
`JSON.parse` in the sources becomes a `none` branch).  Numbers are restricted
to integers and string escapes to the single-character ones; inputs outside
this subset parse to `none`. -/

/-- Drop JSON whitespace. -/
def skipWs (cs : List Char) : List Char :=
  cs.dropWhile jsWs

/-- Parse the body of a JSON string after the opening quote; single-character
escapes only (`\" \\ \/ \n \t \r \b \f`); raw control characters rejected. -/
def parseStrBody (fuel : Nat) (cs : List Char) : Option (String × List Char) :=
  match fuel with
  | 0 => none
  | fuel + 1 =>
    match cs with
    | [] => none
    | '"' :: rest => some ("", rest)
    | '\\' :: e :: rest =>
      ((match e with
        | '"' => some '"'
        | '\\' => some '\\'
        | '/' => some '/'
        | 'n' => some '\n'
        | 't' => some '\t'
        | 'r' => some '\r'
        | 'b' => some (Char.ofNat 8)
        | 'f' => some (Char.ofNat 12)
        | _ => none : Option Char)).bind (fun c =>
        (parseStrBody fuel rest).map (fun sr => (String.mk (c :: sr.1.data), sr.2)))
    | c :: rest =>
      if c.toNat < 32 then none
      else (parseStrBody fuel rest).map (fun sr => (String.mk (c :: sr.1.data), sr.2))

/-- Parse a JSON integer numeral (strict grammar: optional `-`, then `0` or a
nonzero-led digit run; a following `.`/`e` means a fractional or exponent
numeral, outside the modelled subset, hence `none`). -/
def parseNum (cs : List Char) : Option (Int × List Char) :=
  let (sign, cs') : Int × List Char :=
    match cs with
    | '-' :: rest => (-1, rest)
    | _ => (1, cs)
  let digits := cs'.takeWhile Char.isDigit
  let rest := cs'.drop digits.length
  if digits.isEmpty then none
  else if digits.length > 1 ∧ digits.head? = some '0' then none
  else
    match rest with
    | '.' :: _ => none
    | 'e' :: _ => none
    | 'E' :: _ => none
    | _ => some (sign * (digitsToNat digits : Int), rest)

mutual

/-- Parse one JSON value (leading whitespace already skipped). -/
def parseVal (fuel : Nat) (cs : List Char) : Option (Json × List Char) :=
  match fuel with
  | 0 => none
  | fuel + 1 =>
    match cs with
    | 'n' :: 'u' :: 'l' :: 'l' :: rest => some (.null, rest)
    | 't' :: 'r' :: 'u' :: 'e' :: rest => some (.bool true, rest)
    | 'f' :: 'a' :: 'l' :: 's' :: 'e' :: rest => some (.bool false, rest)
    | '"' :: rest => (parseStrBody (rest.length + 1) rest).map (fun sr => (.str sr.1, sr.2))
    | '[' :: rest =>
      (match skipWs rest with
       | ']' :: rest2 => some (.arr [], rest2)
       | cs2 => (parseElems fuel cs2).map (fun er => (.arr er.1, er.2)))
    | '{' :: rest =>
      (match skipWs rest with
       | '}' :: rest2 => some (.obj [], rest2)
       | cs2 =>
         (parseMembers fuel cs2).map
           (fun mr => (.obj (mr.1.foldl (fun acc kv => jinsert acc kv.1 kv.2) []), mr.2)))
    | _ => (parseNum cs).map (fun nr => (.num nr.1, nr.2))

/-- Parse comma-separated array elements up to the closing `]`. -/
def parseElems (fuel : Nat) (cs : List Char) : Option (List Json × List Char) :=
  match fuel with
  | 0 => none
  | fuel + 1 =>
    (parseVal fuel cs).bind (fun vr =>
      match skipWs vr.2 with
      | ',' :: rest => (parseElems fuel (skipWs rest)).map (fun er => (vr.1 :: er.1, er.2))
      | ']' :: rest => some ([vr.1], rest)
      | _ => none)

/-- Parse comma-separated object members up to the closing `}`, in textual
order (duplicate keys collapsed by the caller, JavaScript-style). -/
def parseMembers (fuel : Nat) (cs : List Char) : Option (List (String × Json) × List Char) :=
  match fuel with
  | 0 => none
  | fuel + 1 =>
    match cs with
    | '"' :: rest =>
      (parseStrBody (rest.length + 1) rest).bind (fun kr =>
        match skipWs kr.2 with
        | ':' :: rest2 =>
          (parseVal fuel (skipWs rest2)).bind (fun vr =>
            match skipWs vr.2 with
            | ',' :: rest3 =>
              (parseMembers fuel (skipWs rest3)).map
                (fun mr => ((kr.1, vr.1) :: mr.1, mr.2))
            | '}' :: rest3 => some ([(kr.1, vr.1)], rest3)
            | _ => none)
        | _ => none)
    | _ => none

end

/-- `JSON.parse`: whole-string parse, `none` in place of a thrown
`SyntaxError`. -/
def jsonParse (s : String) : Option Json :=
  match parseVal (s.length + 1) (skipWs s.data) with
  | some (v, rest) => if (skipWs rest).isEmpty then some v else none
  | none => none

/-- Escape one character for a JSON string literal. -/
def escChar (c : Char) : List Char :=
  if c = '"' then ['\\', '"']
  else if c = '\\' then ['\\', '\\']
  else if c = '\n' then ['\\', 'n']
  else if c = '\t' then ['\\', 't']
  else if c = '\r' then ['\\', 'r']
  else [c]

/-- JSON string literal for `s`. -/
def quoteStr (s : String) : String :=
  String.mk ('"' :: s.data.flatMap escChar ++ ['"'])

mutual

/-- `JSON.stringify` (compact form, no spacing).  Entries print in list
order; duplicate-key collapse is an invariant of `jsonParse` output, and
every value serialized by this layer descends from parsed `Json`. -/
def stringify : Json → String
  | .null => "null"
  | .bool true => "true"
  | .bool false => "false"
  | .num n => toString n
  | .str s => quoteStr s
  | .arr xs => "[" ++ String.intercalate "," (stringifyElems xs) ++ "]"
  | .obj kvs => "\x7b" ++ String.intercalate "," (stringifyMembers kvs) ++ "\x7d"

/-- Serialized array elements. -/
def stringifyElems : List Json → List String
  | [] => []
  | x :: xs => stringify x :: stringifyElems xs

/-- Serialized object members `"k":v`. -/
def stringifyMembers : List (String × Json) → List String
  | [] => []
  | (k, v) :: kvs => (quoteStr k ++ ":" ++ stringify v) :: stringifyMembers kvs

end

/-! ## Web platform model: `Headers` and `Response`

Headers are ordered name/value lists with case-insensitive names (ASCII).
A `Response` carries the parts of the Fetch API object this layer touches;
`body` is the full body text (`response.text()` reads it; reading never
fails in the model, and every `catch` around it in the sources becomes an
unreachable branch). -/

/-- Header list (name, value). -/
abbrev HeaderList := List (String × String)

/-- `Headers.get` (case-insensitive; single-valued model, first match). -/
def hget (hs : HeaderList) (name : String) : Option String :=
  match hs with
  | [] => none
  | kv :: rest => if asciiLower kv.1 == asciiLower name then some kv.2 else hget rest name

/-- `Headers.set`: replace the first case-insensitive match in place, else
append. -/
def hset (hs : HeaderList) (name v : String) : HeaderList :=
  match hs with
  | [] => [(name, v)]
  | kv :: rest =>
    if asciiLower kv.1 == asciiLower name then (kv.1, v) :: rest
    else kv :: hset rest name v

/-- The parts of a Fetch `Response` used by this layer. -/
structure Response where
  status : Nat
  statusText : String
  headers : HeaderList
  body : String
deriving Repr, DecidableEq, Inhabited

/-- `Response.ok`: status in the range 200–299. -/
def Response.ok (r : Response) : Bool :=
  200 ≤ r.status ∧ r.status < 300

/-! ## `response.ts` — the response transformer -/

/-- `AntigravityError` (normalized error from `parseErrorBody`); `code` keeps
the raw JSON value (`errorObj.code as string | number | undefined` is a cast,
not a conversion). -/
structure AntigravityError where
  message : String
  type : Option String
  code : Option Json
deriving Repr, Inhabited

/-- `AntigravityUsageMetadata`: the four optional token counts; a `none`
field is an absent key of the JavaScript object. -/
structure AntigravityUsageMetadata where
  cachedContentTokenCount : Option Int
  totalTokenCount : Option Int
  promptTokenCount : Option Int
  candidatesTokenCount : Option Int
deriving Repr, DecidableEq, Inhabited

/-- JavaScript truthiness of a nullable string (`null`/`""` falsy). -/
def strTruthy (o : Option String) : Bool :=
  match o with
  | some s => s != ""
  | none => false

/-- One usage header: the `if (header) { parsed = parseInt(header); if
(!isNaN(parsed)) usage.f = parsed }` step of `extractUsageFromHeaders`. -/
def usageField (o : Option String) : Option Int :=
  if strTruthy o then jsParseInt (o.getD "") else none

/-- `extractUsageFromHeaders` (response.ts:46): read the four dedicated
`x-antigravity-*` headers; `undefined` when all are falsy, else the fields
that parse; `undefined` again when no field parsed
(`Object.keys(usage).length > 0`). -/
def extractUsageFromHeaders (headers : HeaderList) : Option AntigravityUsageMetadata :=
  let cached := hget headers "x-antigravity-cached-content-token-count"
  let total := hget headers "x-antigravity-total-token-count"
  let prompt := hget headers "x-antigravity-prompt-token-count"
  let candidates := hget headers "x-antigravity-candidates-token-count"
  if ¬strTruthy cached ∧ ¬strTruthy total ∧ ¬strTruthy prompt ∧ ¬strTruthy candidates then
    none
  else
    let usage : AntigravityUsageMetadata :=
      { cachedContentTokenCount := usageField cached
        totalTokenCount := usageField total
        promptTokenCount := usageField prompt
        candidatesTokenCount := usageField candidates }
    if usage.cachedContentTokenCount = none ∧ usage.totalTokenCount = none ∧
        usage.promptTokenCount = none ∧ usage.candidatesTokenCount = none then none
    else some usage

/-- The RetryInfo type URL matched in `error.details[]`. -/
def retryInfoType : String :=
  "type.googleapis.com/google.rpc.RetryInfo"

/-- `detail["@type"] === retryInfoType` (property read on a non-object array
element is `undefined`, never equal to the string). -/
def isRetryInfo (d : Json) : Bool :=
  match jget d "@type" with
  | some (.str t) => t == retryInfoType
  | _ => false

/-- Step (a) of `extractRetryAfterMs`: the standard `Retry-After` header,
seconds (`parseFloat`), positive, rounded up to ms. -/
def retryFromHeaderA (response : Response) : Option Int :=
  match hget response.headers "Retry-After" with
  | some h =>
    if h = "" then none
    else
      match jsParseFloat h with
      | some seconds => if 0 < seconds.m then some (ceilMul1000 seconds) else none
      | none => none
  | none => none

/-- Step (b) of `extractRetryAfterMs`: the `retry-after-ms` header, integer
ms (`parseInt`), positive. -/
def retryFromHeaderB (response : Response) : Option Int :=
  match hget response.headers "retry-after-ms" with
  | some h =>
    if h = "" then none
    else
      match jsParseInt h with
      | some ms => if 0 < ms then some ms else none
      | none => none
  | none => none

/-- Step (c) of `extractRetryAfterMs`: a RetryInfo entry of `error.details[]`
whose `retryDelay` matches `/^([\d.]+)s$/`, seconds rounded up to ms. -/
def retryFromBody (errorBody : Option Json) : Option Int :=
  match errorBody with
  | none => none
  | some body =>
    match jget body "error" with
    | none => none
    | some err =>
      match jget err "details" with
      | some (.arr details) =>
        match details.find? isRetryInfo with
        | some ri =>
          match jget ri "retryDelay" with
          | some (.str delay) =>
            if delay = "" then none
            else
              let cs := delay.data
              if cs.getLast? = some 's' ∧ cs.dropLast ≠ [] ∧
                  cs.dropLast.all (fun c => c.isDigit ∨ c = '.') then
                match jsParseFloat (String.mk cs.dropLast) with
                | some seconds => if 0 < seconds.m then some (ceilMul1000 seconds) else none
                | none => none
              else none
          | _ => none
        | none => none
      | _ => none

/-- `extractRetryAfterMs` (response.ts:109): header (a), then header (b),
then the structured RetryInfo (c); each early `return` becomes the next
fallback of the chain. -/
def extractRetryAfterMs (response : Response) (errorBody : Option Json) : Option Int :=
  match retryFromHeaderA response with
  | some v => some v
  | none =>
    match retryFromHeaderB response with
    | some v => some v
    | none => retryFromBody errorBody

/-- The `catch` branch of `parseErrorBody`: `{ message: text || "Unknown
error" }`.  It is reached on a `JSON.parse` failure and also when the parse
yields `null` (the `parsed.error` read then throws a `TypeError` inside the
same `try`). -/
def parseErrorCatch (text : String) : AntigravityError :=
  { message := if text = "" then "Unknown error" else text
    type := none
    code := none }

/-- `parsed.error && typeof parsed.error === "object"`: truthy values of
JavaScript type `object` are objects and arrays (`null` is falsy). -/
def isObjLike : Json → Bool
  | .obj _ => true
  | .arr _ => true
  | _ => false

/-- `parseErrorBody` (response.ts:167): nested `error` object first, then a
top-level string `message`, else `undefined`; invalid JSON yields the raw
text as message. -/
def parseErrorBody (text : String) : Option AntigravityError :=
  match jsonParse text with
  | none => some (parseErrorCatch text)
  | some .null => some (parseErrorCatch text)
  | some parsed =>
    let topLevel : Option AntigravityError :=
      match jget parsed "message" with
      | some (.str m) =>
        if m = "" then none
        else
          some { message := m
                 type :=
                   match jget parsed "type" with
                   | some t => if jsTruthy t then some (jsString t) else none
                   | none => none
                 code := jget parsed "code" }
      | _ => none
    match jget parsed "error" with
    | some e =>
      if isObjLike e then
        some { message :=
                 match jget e "message" with
                 | some m => if jsTruthy m then jsString m else "Unknown error"
                 | none => "Unknown error"
               type :=
                 match jget e "type" with
                 | some t => if jsTruthy t then some (jsString t) else none
                 | none => none
               code := jget e "code" }
      else topLevel
    | none => topLevel

/-- Transform result bundle (`TransformResult`). -/
structure TransformResult where
  response : Response
  usage : Option AntigravityUsageMetadata
  retryAfterMs : Option Int
  error : Option AntigravityError
deriving Repr, Inhabited

/-- The `{ error }` wrapper handed to the first `extractRetryAfterMs` call of
`transformResponse` (a plain object around the normalized error; it never
carries `details`). -/
def errWrapper (e : AntigravityError) : Json :=
  .obj [("error", .obj
    ([("message", .str e.message)] ++
     (match e.type with | some t => [("type", Json.str t)] | none => []) ++
     (match e.code with | some c => [("code", c)] | none => [])))]

/-- The fallback error body `{ error: { message: text } }` used when the raw
error text is not JSON. -/
def rawErrorBody (text : String) : Json :=
  .obj [("error", .obj [("message", .str text)])]

/-- The full error body used for RetryInfo lookup: the parsed text, or the
`{ error: { message: text } }` fallback when the text is not JSON. -/
def parsedErrorBody (text : String) : Json :=
  match jsonParse text with
  | some p => p
  | none => rawErrorBody text

/-- Error branch shared shape: re-read body text, normalize the error,
compute retry-after, and stamp `Retry-After` / `retry-after-ms` when found
(`if (retryMs)` is a numeric truthiness test; the extracted value is always
positive). -/
def errorBranch (response : Response) (twoPass : Bool) : TransformResult :=
  let text := response.body
  let error := parseErrorBody text
  let retryAfterMs :=
    if twoPass then extractRetryAfterMs response (error.map errWrapper) else none
  let retryMs :=
    match extractRetryAfterMs response (some (parsedErrorBody text)) with
    | some v => some v
    | none => retryAfterMs
  let headers :=
    match retryMs with
    | some ms =>
      if ms ≠ 0 then
        hset (hset response.headers "Retry-After" (toString (ceilDiv ms 1000)))
          "retry-after-ms" (toString ms)
      else response.headers
    | none => response.headers
  { response := { status := response.status, statusText := response.statusText,
                  headers := headers, body := text }
    usage := extractUsageFromHeaders response.headers
    retryAfterMs := retryMs
    error := error }

/-- `transformResponse` (response.ts:214): error branch with the redundant
two-pass retry-after computation; JSON success bodies unwrap a top-level
`response` field; non-JSON or unparseable bodies pass through. -/
def transformResponse (response : Response) : TransformResult :=
  let usage := extractUsageFromHeaders response.headers
  if ¬response.ok then errorBranch response true
  else
    let contentType := (hget response.headers "content-type").getD ""
    if ¬jsIncludes contentType "application/json" then
      { response := response, usage := usage, retryAfterMs := none, error := none }
    else
      match jsonParse response.body with
      | some parsed =>
        let transformedBody :=
          match jget parsed "response" with
          | some inner => inner
          | none => parsed
        { response := { status := response.status, statusText := response.statusText,
                        headers := response.headers, body := stringify transformedBody }
          usage := usage, retryAfterMs := none, error := none }
      | none =>
        { response := response, usage := usage, retryAfterMs := none, error := none }

/-- `transformSseLine` (response.ts:298): only `data:` lines change, and of
those only the ones whose payload is JSON with a top-level `response` field
(the `[DONE]` terminator, empty payloads, parse failures and wrapper-less
values pass through; a `null` payload's property read throws and is caught,
passing through as well). -/
def transformSseLine (line : String) : String :=
  if ¬jsStartsWith line "data:" then line
  else
    let json := jsTrim (jsSlice line 5)
    if json = "" ∨ json = "[DONE]" then line
    else
      match jsonParse json with
      | some parsed =>
        match jget parsed "response" with
        | some inner => "data: " ++ stringify inner
        | none => line
      | none => line

/-- `payload.split("\n")`. -/
def splitLines (s : String) : List String :=
  (charSplit s.data).map String.mk

/-- `lines.join("\n")`. -/
def joinLines (ls : List String) : String :=
  String.intercalate "\n" ls

/-- `transformStreamingPayload` (response.ts:335): split on newlines, map
`transformSseLine`, rejoin. -/
def transformStreamingPayload (payload : String) : String :=
  joinLines ((splitLines payload).map transformSseLine)

/-- `isStreamingResponse` (response.ts:452). -/
def isStreamingResponse (response : Response) : Bool :=
  jsIncludes ((hget response.headers "content-type").getD "") "text/event-stream"

/-- `transformStreamingResponse` (response.ts:358): error branch (single
retry-after pass), non-SSE bodies unwrapped like the JSON success path, SSE
bodies rewritten line by line. -/
def transformStreamingResponse (response : Response) : TransformResult :=
  let usage := extractUsageFromHeaders response.headers
  if ¬response.ok then errorBranch response false
  else
    let contentType := (hget response.headers "content-type").getD ""
    if ¬jsIncludes contentType "text/event-stream" then
      match jsonParse response.body with
      | some parsed =>
        let transformedBody :=
          match jget parsed "response" with
          | some inner => inner
          | none => parsed
        { response := { status := response.status, statusText := response.statusText,
                        headers := response.headers, body := stringify transformedBody }
          usage := usage, retryAfterMs := none, error := none }
      | none =>
        { response := { status := response.status, statusText := response.statusText,
                        headers := response.headers, body := response.body }
          usage := usage, retryAfterMs := none, error := none }
    else
      { response := { status := response.status, statusText := response.statusText,
                      headers := response.headers,
                      body := transformStreamingPayload response.body }
        usage := usage, retryAfterMs := none, error := none }

/-! ## `request.ts` — the request transformer -/

/-- `a || b` on a nullable string and a string default. -/
def jsOr (a : Option String) (b : String) : String :=
  match a with
  | some s => if s != "" then s else b
  | none => b

/-- Modelled from the spec: `ANTIGRAVITY_API_VERSION` lives in
`constants.ts`, which is not part of the sources; URL construction is
`{endpoint}/{apiVersion}:{action}` and the exact version string is
immaterial to every claim. -/
def antigravityApiVersion : String :=
  "v1internal"

/-- Modelled from the spec: the fixed vendor identification header values
from `constants.ts` (not part of the sources); the values are immaterial to
every claim. -/
def antigravityUserAgent : String :=
  "antigravity"

/-- Modelled from the spec: see `antigravityUserAgent`. -/
def antigravityApiClient : String :=
  "antigravity-api-client"

/-- Modelled from the spec: see `antigravityUserAgent`. -/
def antigravityClientMetadata : String :=
  "antigravity-client-metadata"

/-- Modelled from the spec: the first entry of
`ANTIGRAVITY_ENDPOINT_FALLBACKS` (`constants.ts`, not part of the sources),
returned by `getDefaultEndpoint`; immaterial to every claim (the interceptor
always passes an explicit endpoint). -/
def defaultEndpoint : String :=
  "https://daily.antigravity.invalid"

/-- `buildRequestHeaders` (request.ts:35): plain-object headers. -/
def buildRequestHeaders (accessToken : String) : List (String × String) :=
  [("Authorization", "Bearer " ++ accessToken),
   ("Content-Type", "application/json"),
   ("User-Agent", antigravityUserAgent),
   ("X-Goog-Api-Client", antigravityApiClient),
   ("Client-Metadata", antigravityClientMetadata)]

/-- Plain-object (case-sensitive) key assignment, for
`headers["Accept"] = …`. -/
def rset (hs : List (String × String)) (k v : String) : List (String × String) :=
  match hs with
  | [] => [(k, v)]
  | kv :: rest => if kv.1 == k then (k, v) :: rest else kv :: rset rest k v

/-- `extractModelFromBody` (request.ts:52): the body's `model` field when it
is a string with nonempty trim. -/
def extractModelFromBody (body : Json) : Option String :=
  match jget body "model" with
  | some (.str m) => if jsTrim m != "" then some (jsTrim m) else none
  | _ => none

/-- The tail of a `/models/{model}:` match: a nonempty colon-free run
followed by a colon. -/
def matchModelsAt (cs : List Char) : Option String :=
  let run := cs.takeWhile (fun c => ¬(c = ':'))
  if run.isEmpty then none
  else
    match cs.drop run.length with
    | d :: _ => if d = ':' then some (String.mk run) else none
    | [] => none

/-- Left-to-right scan for the regex `/\/models\/([^:]+):/`. -/
def scanModels : List Char → Option String
  | [] => none
  | c :: rest =>
    if "/models/".data.isPrefixOf (c :: rest) then
      match matchModelsAt ((c :: rest).drop 8) with
      | some m => some m
      | none => scanModels rest
    else scanModels rest

/-- `extractModelFromUrl` (request.ts:69): first match of
`/\/models\/([^:]+):/`. -/
def extractModelFromUrl (url : String) : Option String :=
  scanModels url.data

/-- `\w` of the action regex. -/
def isWordChar (c : Char) : Bool :=
  c.isAlphanum ∨ c = '_'

/-- Left-to-right scan for the regex `/\/models\/[^:]+:(\w+)/`. -/
def scanAction : List Char → Option String
  | [] => none
  | c :: rest =>
    if "/models/".data.isPrefixOf (c :: rest) then
      let after := (c :: rest).drop 8
      let run := after.takeWhile (fun x => ¬(x = ':'))
      if run.isEmpty then scanAction rest
      else
        match after.drop run.length with
        | ':' :: rest2 =>
          let w := rest2.takeWhile isWordChar
          if w.isEmpty then scanAction rest else some (String.mk w)
        | _ => scanAction rest
    else scanAction rest

/-- `extractActionFromUrl` (request.ts:85): first match of
`/\/models\/[^:]+:(\w+)/`. -/
def extractActionFromUrl (url : String) : Option String :=
  scanAction url.data

/-- `buildAntigravityUrl` (request.ts:112). -/
def buildAntigravityUrl (baseEndpoint action : String) (streaming : Bool) : String :=
  baseEndpoint ++ "/" ++ antigravityApiVersion ++ ":" ++ action ++
    (if streaming then "?alt=sse" else "")

/-- Vendor envelope `{project, model, request}` (`AntigravityRequestBody`). -/
structure AntigravityRequestBody where
  project : String
  model : String
  request : Json
deriving Repr, Inhabited

/-- `wrapRequestBody` (request.ts:140): shallow-copy the body (`{...body}`),
delete its `model` key, wrap.  `delete` of one own property is `filter` here
because spread output never carries duplicate keys. -/
def wrapRequestBody (body : Json) (projectId modelName : String) : AntigravityRequestBody :=
  let requestPayload := jsDelete (jsSpread body) "model"
  { project := projectId, model := modelName, request := .obj requestPayload }

/-- `isStreamingRequest` (request.ts:166): streaming action in the URL, or
`body.stream === true`. -/
def isStreamingRequest (url : String) (body : Json) : Bool :=
  if extractActionFromUrl url = some "streamGenerateContent" then true
  else
    match jget body "stream" with
    | some (.bool true) => true
    | _ => false

/-- `transformRequest` result (`TransformedRequest`). -/
structure TransformedRequest where
  url : String
  headers : List (String × String)
  body : AntigravityRequestBody
  streaming : Bool
deriving Repr, Inhabited

/-- `transformRequest` (request.ts:196): model precedence is the JavaScript
`||` chain argument > body > URL > fixed default. -/
def transformRequest (url : String) (body : Json) (accessToken projectId : String)
    (modelName : Option String) (endpointOverride : Option String) : TransformedRequest :=
  let effectiveModel :=
    jsOr modelName (jsOr (extractModelFromBody body)
      (jsOr (extractModelFromUrl url) "gemini-3-pro-preview"))
  let streaming := isStreamingRequest url body
  let action := if streaming then "streamGenerateContent" else "generateContent"
  let endpoint := jsOr endpointOverride defaultEndpoint
  let transformedUrl := buildAntigravityUrl endpoint action streaming
  let headers := buildRequestHeaders accessToken
  let headers := if streaming then rset headers "Accept" "text/event-stream" else headers
  let wrappedBody := wrapRequestBody body projectId effectiveModel
  { url := transformedUrl, headers := headers, body := wrappedBody, streaming := streaming }

/-! ## `fetch.ts` — the interceptor

External collaborators (`./token`, `./project`, `./tools`, `./thinking`,
`constants.ts` and the real network `fetch`) are out-of-scope modules; they
enter the model as the fields of `FetchEnv`.  `client.set` and
`clearProjectContextCache` are effects on external stores and do not touch
the value returned to the caller, so they have no counterpart here. -/

/-- `isRetryableError` (fetch.ts:52). -/
def isRetryableError (status : Nat) : Bool :=
  if status = 0 then true
  else if status = 429 then true
  else if 500 ≤ status ∧ status < 600 then true
  else false

/-- The auth record from `getAuth()`. -/
structure Auth where
  access : Option String
  refresh : Option String
  expires : Option Int
deriving Repr, Inhabited

/-- Decoded composite stored refresh credential (`parseStoredToken`,
external `./token`). -/
structure RefreshParts where
  refreshToken : String
  projectId : Option String
  managedProjectId : Option String
deriving Repr, Inhabited

/-- Result of the external `refreshAccessToken`. -/
structure NewTokens where
  access_token : String
  refresh_token : String
  expires_in : Int
deriving Repr, Inhabited

/-- Cached token state (`AntigravityTokens`; the constant `type:
"antigravity"` tag is omitted). -/
structure Tokens where
  access_token : String
  refresh_token : String
  expires_in : Int
  timestamp : Int
deriving Repr, Inhabited

/-- The slice of `RequestInit` the interceptor reads.  Bodies are modelled
as JSON strings (the inbound contract; `signal` is pass-through). -/
structure RequestInit where
  method : Option String
  body : Option String
deriving Repr, Inhabited

/-- The external collaborators consumed by one interceptor call, plus the
endpoint list.  `net` is the real `fetch`: `none` models a thrown network
error.  Modelled from the spec where the module is absent from the sources:
`endpoints` is `ANTIGRAVITY_ENDPOINT_FALLBACKS` (an ordered endpoint list,
three entries deployed), `parseStoredToken` / `isTokenExpired` /
`refreshAccessToken` are the `./token` externals, `fetchProjectContext`
yields the optional `cloudaicompanionProject` field, `normalizeTools` is the
`./tools` normalizer (`none` when it returns `undefined`), and the three
thinking fields are the `./thinking` externals. -/
structure FetchEnv where
  endpoints : List String
  parseStoredToken : String → RefreshParts
  isTokenExpired : Tokens → Bool
  refreshAccessToken : String → Except String NewTokens
  fetchProjectContext : String → Option String
  normalizeTools : Json → Option Json
  shouldIncludeThinking : String → Bool
  extractHasThinking : Json → Bool
  transformResponseThinking : Json → Json
  net : TransformedRequest → Option Response
  now : Int

/-- Body parse of `attemptFetch` (fetch.ts:77): absent or unparseable bodies
become `{}`. -/
def parsedBody (init : RequestInit) : Json :=
  match init.body with
  | none => .obj []
  | some b =>
    match jsonParse b with
    | some j => j
    | none => .obj []

/-- The vendor request one endpoint attempt sends (fetch.ts:90–106): tool
normalization when `body.tools` is an array, then `transformRequest`. -/
def attemptRequest (env : FetchEnv) (endpoint url : String) (init : RequestInit)
    (accessToken projectId : String) (modelName : Option String) : TransformedRequest :=
  let body := parsedBody init
  let body :=
    match jget body "tools" with
    | some (.arr ts) =>
      match env.normalizeTools (.arr ts) with
      | some nt => jset body "tools" nt
      | none => body
    | _ => body
  transformRequest url body accessToken projectId modelName (some endpoint)

/-- `attemptFetch` (fetch.ts:65): `none` is the `null` of the source — a
thrown error (network failure, or the `body.tools` read on a JSON-`null`
body, both landing in the same `catch`) or a retryable status.  Terminal
responses come back as-is. -/
def attemptFetch (env : FetchEnv) (endpoint url : String) (init : RequestInit)
    (accessToken projectId : String) (modelName : Option String) : Option Response :=
  match parsedBody init with
  | .null => none
  | _ =>
    let transformed := attemptRequest env endpoint url init accessToken projectId modelName
    match env.net transformed with
    | none => none
    | some response =>
      if ¬response.ok ∧ isRetryableError response.status then none
      else some response

/-- `transformResponseWithThinking` (fetch.ts:135): transform by streaming
mode; for non-streaming responses of high-thinking models, re-parse and
rewrite thinking blocks, falling back to the transformed response on parse
failure. -/
def transformResponseWithThinking (env : FetchEnv) (response : Response)
    (modelName : String) : Response :=
  let streaming := isStreamingResponse response
  let result :=
    if streaming then transformStreamingResponse response else transformResponse response
  if ¬streaming ∧ env.shouldIncludeThinking modelName then
    match jsonParse result.response.body with
    | some parsed =>
      if env.extractHasThinking parsed then
        { status := result.response.status, statusText := result.response.statusText,
          headers := result.response.headers,
          body := stringify (env.transformResponseThinking parsed) }
      else result.response
    | none => result.response
  else result.response

/-- The endpoint loop (fetch.ts:303–321) over the capped list, also counting
the attempts made. -/
def runEndpoints (env : FetchEnv) (url : String) (init : RequestInit)
    (accessToken projectId : String) (modelName : Option String) :
    List String → Option Response × Nat
  | [] => (none, 0)
  | e :: rest =>
    match attemptFetch env e url init accessToken projectId modelName with
    | some r => (some r, 1)
    | none =>
      let res := runEndpoints env url init accessToken projectId modelName rest
      (res.1, res.2 + 1)

/-- Body of the synthesized all-endpoints-failed response (fetch.ts:328). -/
def endpointFailureBody (n : Nat) : String :=
  stringify (.obj [("error", .obj
    [("message", .str ("All Antigravity endpoints failed after " ++ toString n ++ " attempts")),
     ("type", .str "endpoint_failure"),
     ("code", .str "all_endpoints_failed")])])

/-- The synthesized all-endpoints-failed response (fetch.ts:328–341). -/
def endpointFailureResponse (n : Nat) : Response :=
  { status := 503, statusText := "Service Unavailable",
    headers := [("Content-Type", "application/json")],
    body := endpointFailureBody n }

/-- Model-name extraction from the request body (fetch.ts:285–298); parse
failures (and the property read on a JSON-`null` body) are swallowed. -/
def extractedModelName (init : RequestInit) : Option String :=
  match init.body with
  | none => none
  | some b =>
    match jsonParse b with
    | some p =>
      match jget p "model" with
      | some (.str s) => some s
      | _ => none
    | none => none

/-- `auth.expires ? a : b` (numeric truthiness). -/
def optIntTruthy (o : Option Int) : Bool :=
  match o with
  | some n => n != 0
  | none => false

/-- Seed or update the cached token state (fetch.ts:221–233). -/
def buildTokens (cache : Option Tokens) (auth : Auth) (refreshParts : RefreshParts)
    (now : Int) : Tokens :=
  match cache with
  | none =>
    { access_token := auth.access.getD ""
      refresh_token := refreshParts.refreshToken
      expires_in :=
        if optIntTruthy auth.expires then Int.fdiv (auth.expires.getD 0 - now) 1000 else 3600
      timestamp :=
        if optIntTruthy auth.expires then auth.expires.getD 0 - 3600 * 1000 else now }
  | some t =>
    { t with access_token := auth.access.getD "", refresh_token := refreshParts.refreshToken }

/-- The fatal error thrown before any network activity when credentials are
missing (fetch.ts:214). -/
def authMissingMsg : String :=
  "Antigravity: No authentication tokens available"

/-- The fatal error thrown when the single refresh attempt fails
(fetch.ts:269). -/
def refreshFailedMsg (cause : String) : String :=
  "Antigravity: Token refresh failed: " ++ cause

/-- The tail of one interceptor call after auth and refresh succeeded
(fetch.ts:275–341): project resolution, model extraction, the capped
endpoint loop, response transformation, or the synthesized 503. -/
def runMain (env : FetchEnv) (tokens : Tokens) (refreshParts : RefreshParts)
    (cachedProjectId : Option String) (url : String) (init : RequestInit) : Response :=
  let fetchedPid :=
    match cachedProjectId with
    | some p => p
    | none => (env.fetchProjectContext tokens.access_token).getD ""
  let projectId := jsOr refreshParts.projectId fetchedPid
  let modelName := extractedModelName init
  match runEndpoints env url init tokens.access_token projectId modelName
      (env.endpoints.take 3) with
  | (some r, _) => transformResponseWithThinking env r (jsOr modelName "")
  | (none, _) => endpointFailureResponse (min env.endpoints.length 3)

/-- One call of the function returned by `createAntigravityFetch`
(fetch.ts:208–342).  `cachedTokens` / `cachedProjectId` are the closure
caches at entry; `Except.error` models the two `throw` sites. -/
def interceptCall (env : FetchEnv) (cachedTokens : Option Tokens)
    (cachedProjectId : Option String) (auth : Auth) (url : String)
    (init : RequestInit) : Except String Response :=
  if ¬strTruthy auth.access ∨ ¬strTruthy auth.refresh then .error authMissingMsg
  else
    let refreshParts := env.parseStoredToken (auth.refresh.getD "")
    let tokens := buildTokens cachedTokens auth refreshParts env.now
    if env.isTokenExpired tokens then
      match env.refreshAccessToken refreshParts.refreshToken with
      | .error e => .error (refreshFailedMsg e)
      | .ok nt =>
        let tokens2 : Tokens :=
          { access_token := nt.access_token, refresh_token := nt.refresh_token,
            expires_in := nt.expires_in, timestamp := env.now }
        .ok (runMain env tokens2 refreshParts cachedProjectId url init)
    else .ok (runMain env tokens refreshParts cachedProjectId url init)

/-! ## Theorems -/

/-- The gated per-header step equals "present and parses as an integer". -/
lemma usageField_eq_bind (o : Option String) : usageField o = o.bind jsParseInt := by
  cases o with
  | none => rfl
  | some s =>
    by_cases h : s = ""
    · subst h; rfl
    · simp [usageField, strTruthy, h]

/-- A falsy (absent or empty) header never parses. -/
lemma bind_none_of_falsy (o : Option String) (h : strTruthy o = false) :
    o.bind jsParseInt = none := by
  cases o with
  | none => rfl
  | some s =>
    simp only [strTruthy, bne_eq_false_iff_eq] at h
    subst h; rfl

/-- C9.  Usage extraction from the four dedicated `x-antigravity-*` headers:
all four absent gives `undefined`; otherwise the result carries exactly the
fields whose headers are present and parse as integers (a present but
non-numeric header contributes nothing), and when no header parses the whole
structure is `undefined` again. -/
theorem extractUsageFromHeaders_characterization (hs : HeaderList) :
    extractUsageFromHeaders hs =
      (if (hget hs "x-antigravity-cached-content-token-count").bind jsParseInt = none ∧
          (hget hs "x-antigravity-total-token-count").bind jsParseInt = none ∧
          (hget hs "x-antigravity-prompt-token-count").bind jsParseInt = none ∧
          (hget hs "x-antigravity-candidates-token-count").bind jsParseInt = none then none
       else some
         ⟨(hget hs "x-antigravity-cached-content-token-count").bind jsParseInt,
          (hget hs "x-antigravity-total-token-count").bind jsParseInt,
          (hget hs "x-antigravity-prompt-token-count").bind jsParseInt,
          (hget hs "x-antigravity-candidates-token-count").bind jsParseInt⟩) := by
  rw [extractUsageFromHeaders]
  simp only [usageField_eq_bind]
  by_cases habs : ¬strTruthy (hget hs "x-antigravity-cached-content-token-count") ∧
      ¬strTruthy (hget hs "x-antigravity-total-token-count") ∧
      ¬strTruthy (hget hs "x-antigravity-prompt-token-count") ∧
      ¬strTruthy (hget hs "x-antigravity-candidates-token-count")
  · rw [if_pos habs]
    obtain ⟨h1, h2, h3, h4⟩ := habs
    rw [Bool.not_eq_true] at h1 h2 h3 h4
    rw [if_pos ⟨bind_none_of_falsy _ h1, bind_none_of_falsy _ h2,
      bind_none_of_falsy _ h3, bind_none_of_falsy _ h4⟩]
  · rw [if_neg habs]

/-- Deleting a key leaves lookups of other keys unchanged. -/
lemma alookup_delete_ne (kvs : List (String × Json)) (k k' : String) (hk : ¬k' = k) :
    alookup (jsDelete kvs k) k' = alookup kvs k' := by
  have hkk : ¬k = k' := fun h => hk h.symm
  induction kvs with
  | nil => rfl
  | cons kv rest ih =>
    by_cases hm : kv.1 = k
    · simp [jsDelete, alookup, hm, hkk, ih]
    · by_cases hke : kv.1 = k'
      · simp [jsDelete, alookup, hm, hke, hk, ih]
      · simp [jsDelete, alookup, hm, hke, ih]

/-- Deleting a key removes it from lookup. -/
lemma alookup_delete_self (kvs : List (String × Json)) (k : String) :
    alookup (jsDelete kvs k) k = none := by
  induction kvs with
  | nil => rfl
  | cons kv rest ih =>
    by_cases hm : kv.1 = k
    · simp [jsDelete, hm, ih]
    · simp [jsDelete, alookup, hm, ih]

/-- Deleting a key keeps every other key in its original order. -/
lemma map_fst_delete (kvs : List (String × Json)) (k : String) :
    (jsDelete kvs k).map Prod.fst = (kvs.map Prod.fst).filter (fun s => !(s == k)) := by
  induction kvs with
  | nil => rfl
  | cons kv rest ih =>
    by_cases hm : kv.1 = k
    · simp [jsDelete, List.filter_cons, hm, ih]
    · simp [jsDelete, List.filter_cons, hm, ih]

/-- C8.  Wrapping a body yields `{project, model, request}` where `request`
is the body with its `model` key removed: reading any non-`model` key of
`request` gives exactly the original body's value, `model` is gone, and the
remaining keys keep their original order.  (The no-mutation clause of the
claim is automatic here: `wrapRequestBody` is a pure function of the
embedded body value, matching the source's shallow copy before the
`delete`.) -/
theorem wrapRequestBody_roundTrip (kvs : List (String × Json)) (pid m : String) :
    (wrapRequestBody (.obj kvs) pid m).project = pid ∧
    (wrapRequestBody (.obj kvs) pid m).model = m ∧
    (wrapRequestBody (.obj kvs) pid m).request = .obj (jsDelete kvs "model") ∧
    jget (wrapRequestBody (.obj kvs) pid m).request "model" = none ∧
    (∀ k, ¬k = "model" →
      jget (wrapRequestBody (.obj kvs) pid m).request k = jget (.obj kvs) k) ∧
    (jsDelete kvs "model").map Prod.fst =
      (kvs.map Prod.fst).filter (fun s => !(s == "model")) := by
  refine ⟨rfl, rfl, rfl, ?_, ?_, map_fst_delete kvs "model"⟩
  · simp [wrapRequestBody, jget, jsSpread, alookup_delete_self]
  · intro k hk
    simp [wrapRequestBody, jget, jsSpread, alookup_delete_ne kvs "model" k hk]

/-- C8 witness: concrete round-trip instance. -/
theorem wrapRequestBody_roundTrip_witness :
    jget (wrapRequestBody (.obj [("model", Json.str "x"), ("a", Json.num 1)]) "p" "mm").request
        "a" =
      jget (.obj [("model", Json.str "x"), ("a", Json.num 1)]) "a" :=
  (wrapRequestBody_roundTrip [("model", Json.str "x"), ("a", Json.num 1)] "p" "mm").2.2.2.2.1
    "a" (by decide)

/-- C5 counterexample: `"{}"` is valid JSON with neither a nested error
object nor a top-level string message; the code yields no normalized error
at all, while the claim's final clause would demand
`{message: "{}"}`. -/
theorem parseErrorBody_json_without_fields :
    parseErrorBody "\x7b\x7d" = none := rfl

/-- C5 (amended).  Error-body parsing, for every raw error-body text: a
nested truthy `error` object always wins — over any top-level `message` too
— and supplies `message`/`type`/`code`, the message defaulting to
`"Unknown error"` when falsy or absent; else a top-level nonempty string
`message` supplies the top-level fields; else invalid JSON (or JSON `null`,
whose property read throws into the same catch) makes the raw text itself
the message (`"Unknown error"` for empty text); and valid JSON whose
`error` field is missing or not a truthy object and whose `message` field
is missing, non-string or empty yields no normalized error. -/
theorem parseErrorBody_characterization :
    (∀ t p e, jsonParse t = some p → jget p "error" = some e → isObjLike e = true →
      parseErrorBody t = some
        ⟨(match jget e "message" with
           | some m => if jsTruthy m then jsString m else "Unknown error"
           | none => "Unknown error"),
         (match jget e "type" with
           | some ty => if jsTruthy ty then some (jsString ty) else none
           | none => none),
         jget e "code"⟩) ∧
    (∀ t p m, jsonParse t = some p →
      (∀ e, jget p "error" = some e → isObjLike e = false) →
      jget p "message" = some (.str m) → ¬m = "" →
      parseErrorBody t = some
        ⟨m,
         (match jget p "type" with
           | some ty => if jsTruthy ty then some (jsString ty) else none
           | none => none),
         jget p "code"⟩) ∧
    (∀ t, jsonParse t = none →
      parseErrorBody t = some ⟨if t = "" then "Unknown error" else t, none, none⟩) ∧
    (∀ t, jsonParse t = some .null →
      parseErrorBody t = some ⟨if t = "" then "Unknown error" else t, none, none⟩) ∧
    (∀ t p, jsonParse t = some p → ¬p = .null →
      (∀ e, jget p "error" = some e → isObjLike e = false) →
      (∀ s, jget p "message" = some (.str s) → s = "") →
      parseErrorBody t = none) ∧
    parseErrorBody "boom" = some ⟨"boom", none, none⟩ ∧
    parseErrorBody "\x7b\"error\":\x7b\"message\":\"bad\",\"code\":400\x7d\x7d" =
      some ⟨"bad", none, some (.num 400)⟩ ∧
    parseErrorBody "\x7b\"error\":\x7b\x7d\x7d" = some ⟨"Unknown error", none, none⟩ ∧
    parseErrorBody "\x7b\"error\":\x7b\"message\":\"bad\"\x7d,\"message\":\"top\"\x7d" =
      some ⟨"bad", none, none⟩ := by
  refine ⟨?_, ?_, ?_, ?_, ?_, rfl, rfl, rfl, rfl⟩
  · intro t p e hp he hobj
    cases p with
    | obj kvs =>
      unfold parseErrorBody
      rw [hp]
      dsimp only
      rw [he]
      dsimp only
      rw [if_pos hobj]
    | null => simp [jget] at he
    | bool b => simp [jget] at he
    | num n => simp [jget] at he
    | str s => simp [jget] at he
    | arr xs => simp [jget] at he
  · intro t p m hp herr hmsg hne
    cases p with
    | obj kvs =>
      unfold parseErrorBody
      rw [hp]
      dsimp only
      rcases he2 : jget (.obj kvs) "error" with _ | v
      · dsimp only
        rw [hmsg]
        dsimp only
        rw [if_neg hne]
      · have hv := herr v he2
        dsimp only
        rw [if_neg (by simp [hv])]
        rw [hmsg]
        dsimp only
        rw [if_neg hne]
    | null => simp [jget] at hmsg
    | bool b => simp [jget] at hmsg
    | num n => simp [jget] at hmsg
    | str s => simp [jget] at hmsg
    | arr xs => simp [jget] at hmsg
  · intro t h
    simp [parseErrorBody, h, parseErrorCatch]
  · intro t h
    simp [parseErrorBody, h, parseErrorCatch]
  · intro t p hp hnull herr hmsg
    cases p with
    | null => exact absurd rfl hnull
    | bool b =>
      unfold parseErrorBody
      rw [hp]
      rfl
    | num n =>
      unfold parseErrorBody
      rw [hp]
      rfl
    | str s =>
      unfold parseErrorBody
      rw [hp]
      rfl
    | arr xs =>
      unfold parseErrorBody
      rw [hp]
      rfl
    | obj kvs =>
      unfold parseErrorBody
      rw [hp]
      dsimp only
      rcases he2 : jget (.obj kvs) "error" with _ | v
      · dsimp only
        rcases hm2 : jget (.obj kvs) "message" with _ | v2
        · rfl
        · cases v2 with
          | str s =>
            dsimp only
            rw [if_pos (hmsg s hm2)]
          | null => rfl
          | bool b => rfl
          | num n => rfl
          | arr xs => rfl
          | obj kvs2 => rfl
      · have hv := herr v he2
        dsimp only
        rw [if_neg (by simp [hv])]
        rcases hm2 : jget (.obj kvs) "message" with _ | v2
        · rfl
        · cases v2 with
          | str s =>
            dsimp only
            rw [if_pos (hmsg s hm2)]
          | null => rfl
          | bool b => rfl
          | num n => rfl
          | arr xs => rfl
          | obj kvs2 => rfl

/-- C5 witness: the amended characterization applied at the non-JSON text
`"oops"`. -/
theorem parseErrorBody_characterization_witness :
    parseErrorBody "oops" = some ⟨if "oops" = "" then "Unknown error" else "oops", none, none⟩ :=
  parseErrorBody_characterization.2.2.1 "oops" rfl

/-- A model extracted from the body is never the empty string (it is a
nonempty trim). -/
lemma extractModelFromBody_ne_empty (body : Json) (bm : String)
    (h : extractModelFromBody body = some bm) : ¬bm = "" := by
  rcases hg : jget body "model" with _ | j
  · simp [extractModelFromBody, hg] at h
  · cases j <;> simp [extractModelFromBody, hg, bne_iff_ne] at h
    obtain ⟨h1, h2⟩ := h
    rw [← h2]
    exact h1

/-- A `/models/` match captures a nonempty group. -/
lemma matchModelsAt_ne_empty (cs : List Char) (m : String)
    (h : matchModelsAt cs = some m) : ¬m = "" := by
  unfold matchModelsAt at h
  by_cases he : (cs.takeWhile (fun c => ¬(c = ':'))).isEmpty = true
  · rw [if_pos he] at h
    simp at h
  · rw [if_neg he] at h
    rcases hd : cs.drop (cs.takeWhile (fun c => ¬(c = ':'))).length with _ | ⟨d, ds⟩ <;>
      rw [hd] at h
    · simp at h
    · simp only [Option.ite_none_right_eq_some, Option.some.injEq] at h
      obtain ⟨-, h2⟩ := h
      rw [← h2]
      intro hum
      have hrun : cs.takeWhile (fun c => ¬(c = ':')) = [] := by
        have := congrArg String.data hum
        simpa using this
      rw [hrun] at he
      exact he rfl

/-- See `matchModelsAt_ne_empty`: the scan only succeeds with a nonempty
capture. -/
lemma scanModels_ne_empty (cs : List Char) (um : String)
    (h : scanModels cs = some um) : ¬um = "" := by
  induction cs with
  | nil => simp [scanModels] at h
  | cons c rest ih =>
    rw [scanModels] at h
    by_cases hp : "/models/".data.isPrefixOf (c :: rest) = true
    · rw [if_pos hp] at h
      rcases hm : matchModelsAt ((c :: rest).drop 8) with _ | m' <;> simp only [hm] at h
      · exact ih h
      · cases h
        exact matchModelsAt_ne_empty _ _ hm
    · rw [if_neg hp] at h
      exact ih h

/-- See `scanModels_ne_empty`. -/
lemma extractModelFromUrl_ne_empty (url : String) (um : String)
    (h : extractModelFromUrl url = some um) : ¬um = "" :=
  scanModels_ne_empty url.data um h

/-- C6.  Model resolution precedence in `transformRequest`: the explicit
argument wins whenever it is a nonempty string; with the argument absent (or
empty, which JavaScript `||` skips), the body's `model` field wins; then the
`/models/{model}:{action}` URL segment; then the fixed fallback — and with
all four sources supplied and conflicting, the explicit argument wins. -/
theorem transformRequest_model_precedence :
    (∀ url body tok pid ep m, ¬m = "" →
      (transformRequest url body tok pid (some m) ep).body.model = m) ∧
    (∀ url body tok pid ep mn bm, (mn = none ∨ mn = some "") →
      extractModelFromBody body = some bm →
      (transformRequest url body tok pid mn ep).body.model = bm) ∧
    (∀ url body tok pid ep mn um, (mn = none ∨ mn = some "") →
      extractModelFromBody body = none →
      extractModelFromUrl url = some um →
      (transformRequest url body tok pid mn ep).body.model = um) ∧
    (∀ url body tok pid ep mn, (mn = none ∨ mn = some "") →
      extractModelFromBody body = none →
      extractModelFromUrl url = none →
      (transformRequest url body tok pid mn ep).body.model = "gemini-3-pro-preview") ∧
    (transformRequest "https://x/models/m-url:generateContent"
        (.obj [("model", Json.str "m-body")]) "tok" "proj" (some "m-arg")
        (some "ep")).body.model = "m-arg" := by
  refine ⟨?_, ?_, ?_, ?_, by decide⟩
  · intro url body tok pid ep m hm
    simp [transformRequest, wrapRequestBody, jsOr, bne_iff_ne, hm]
  · intro url body tok pid ep mn bm hmn hb
    have hne := extractModelFromBody_ne_empty body bm hb
    rcases hmn with h | h <;>
      simp [transformRequest, wrapRequestBody, jsOr, h, hb, bne_iff_ne, hne]
  · intro url body tok pid ep mn um hmn hb hu
    have hne := extractModelFromUrl_ne_empty url um hu
    rcases hmn with h | h <;>
      simp [transformRequest, wrapRequestBody, jsOr, h, hb, hu, bne_iff_ne, hne]
  · intro url body tok pid ep mn hmn hb hu
    rcases hmn with h | h <;>
      simp [transformRequest, wrapRequestBody, jsOr, h, hb, hu]

/-- C6 witness: an explicit nonempty argument wins at a concrete input. -/
theorem transformRequest_model_precedence_witness :
    (transformRequest "u" (.obj []) "t" "p" (some "mw") none).body.model = "mw" :=
  transformRequest_model_precedence.1 "u" (.obj []) "t" "p" none "mw" (by decide)

/-- The empty payload is not JSON. -/
lemma jsonParse_empty : jsonParse "" = none := rfl

/-- The stream terminator is not JSON. -/
lemma jsonParse_done : jsonParse "[DONE]" = none := rfl

/-- C7.  The streaming rewrite splits the payload into lines, maps each line
independently and rejoins with newlines, preserving line count and order;
non-`data:` lines pass through; `data:` lines pass through when the payload
is empty, the `[DONE]` terminator, unparseable, or parsed without a
top-level `response` field; a parsed top-level `response` field rewrites the
line to `data: ` followed by the inner value's serialization.  The claim's
four-line example rewrites only the third line. -/
theorem transformStreamingPayload_characterization :
    (∀ payload, transformStreamingPayload payload =
      joinLines ((splitLines payload).map transformSseLine)) ∧
    (∀ payload, ((splitLines payload).map transformSseLine).length =
      (splitLines payload).length) ∧
    (∀ line, jsStartsWith line "data:" = false → transformSseLine line = line) ∧
    (∀ line, jsStartsWith line "data:" = true → jsTrim (jsSlice line 5) = "" →
      transformSseLine line = line) ∧
    (∀ line, jsStartsWith line "data:" = true → jsTrim (jsSlice line 5) = "[DONE]" →
      transformSseLine line = line) ∧
    (∀ line, jsStartsWith line "data:" = true →
      jsonParse (jsTrim (jsSlice line 5)) = none → transformSseLine line = line) ∧
    (∀ line parsed, jsStartsWith line "data:" = true →
      jsonParse (jsTrim (jsSlice line 5)) = some parsed →
      jget parsed "response" = none → transformSseLine line = line) ∧
    (∀ line parsed inner, jsStartsWith line "data:" = true →
      jsonParse (jsTrim (jsSlice line 5)) = some parsed →
      jget parsed "response" = some inner →
      transformSseLine line = "data: " ++ stringify inner) ∧
    transformStreamingPayload
        "event: ping\n\ndata: \x7b\"response\":\x7b\"a\":1\x7d\x7d\ndata: [DONE]" =
      "event: ping\n\ndata: \x7b\"a\":1\x7d\ndata: [DONE]" := by
  refine ⟨fun _ => rfl, fun payload => List.length_map _ _, ?_, ?_, ?_, ?_, ?_, ?_, by decide⟩
  · intro line h
    unfold transformSseLine
    rw [if_pos (show ¬(jsStartsWith line "data:" = true) by simp [h])]
  · intro line h hj
    unfold transformSseLine
    rw [if_neg (show ¬¬(jsStartsWith line "data:" = true) from fun hc => hc h)]
    rw [if_pos (Or.inl hj)]
  · intro line h hj
    unfold transformSseLine
    rw [if_neg (show ¬¬(jsStartsWith line "data:" = true) from fun hc => hc h)]
    rw [if_pos (Or.inr hj)]
  · intro line h hp
    unfold transformSseLine
    rw [if_neg (show ¬¬(jsStartsWith line "data:" = true) from fun hc => hc h)]
    by_cases hj : jsTrim (jsSlice line 5) = "" ∨ jsTrim (jsSlice line 5) = "[DONE]"
    · rw [if_pos hj]
    · rw [if_neg hj, hp]
  · intro line parsed h hp hr
    unfold transformSseLine
    rw [if_neg (show ¬¬(jsStartsWith line "data:" = true) from fun hc => hc h)]
    by_cases hj : jsTrim (jsSlice line 5) = "" ∨ jsTrim (jsSlice line 5) = "[DONE]"
    · rw [if_pos hj]
    · rw [if_neg hj, hp]
      simp only [hr]
  · intro line parsed inner h hp hr
    unfold transformSseLine
    rw [if_neg (show ¬¬(jsStartsWith line "data:" = true) from fun hc => hc h)]
    have hj : ¬(jsTrim (jsSlice line 5) = "" ∨ jsTrim (jsSlice line 5) = "[DONE]") := by
      rintro (hj | hj) <;> rw [hj] at hp
      · exact absurd hp (by rw [jsonParse_empty]; simp)
      · exact absurd hp (by rw [jsonParse_done]; simp)
    rw [if_neg hj, hp]
    simp only [hr]

/-- C7 witness: a wrapped data line rewrites to the unwrapped payload. -/
theorem transformStreamingPayload_characterization_witness :
    transformSseLine "data: \x7b\"response\":\x7b\"b\":2\x7d\x7d" = "data: " ++ stringify (.obj [("b", Json.num 2)]) :=
  transformStreamingPayload_characterization.2.2.2.2.2.2.2.1
    "data: \x7b\"response\":\x7b\"b\":2\x7d\x7d" (.obj [("response", .obj [("b", Json.num 2)])])
    (.obj [("b", Json.num 2)]) (by decide) rfl rfl

/-- Powers of ten are positive. -/
lemma pow10_pos (k : Nat) : 0 < pow10 k := by
  induction k with
  | zero => simp [pow10]
  | succ n ih => simp [pow10]; omega

/-- `ceilDiv` of a positive value by a positive divisor is positive. -/
lemma ceilDiv_pos (a b : Int) (hb : 0 < b) (ha : 0 < a) : 0 < ceilDiv a b := by
  unfold ceilDiv
  rw [Int.fdiv_eq_tdiv (by omega) (by omega)]
  rw [Int.tdiv_eq_ediv (by omega) (by omega)]
  have := Int.le_ediv_iff_mul_le (a := 1) (b := a + b - 1) hb
  omega

/-- `Math.ceil(d * 1000)` of a positive decimal is positive. -/
lemma ceilMul1000_pos (d : Dec) (hd : 0 < d.m) : 0 < ceilMul1000 d := by
  unfold ceilMul1000
  have hb : (0 : Int) < (pow10 d.k : Int) := by exact_mod_cast pow10_pos d.k
  exact ceilDiv_pos _ _ hb (by nlinarith)

/-- The normalized-error wrapper carries no `details`, so step (c) never
fires on it. -/
lemma retryFromBody_errWrapper (e : AntigravityError) :
    retryFromBody (some (errWrapper e)) = none := by
  rcases e with ⟨msg, t, c⟩
  cases t <;> cases c <;> rfl

/-- When the chain misses, every step missed. -/
lemma extract_none_parts (resp : Response) (b : Option Json)
    (h : extractRetryAfterMs resp b = none) :
    retryFromHeaderA resp = none ∧ retryFromHeaderB resp = none ∧ retryFromBody b = none := by
  unfold extractRetryAfterMs at h
  rcases hA : retryFromHeaderA resp with _ | v <;> rw [hA] at h
  · rcases hB : retryFromHeaderB resp with _ | v <;> rw [hB] at h
    · exact ⟨rfl, rfl, h⟩
    · exact absurd h (by simp)
  · exact absurd h (by simp)

/-- Whatever the chain produces, some step produced it. -/
lemma extract_some_parts (resp : Response) (b : Option Json) (v : Int)
    (h : extractRetryAfterMs resp b = some v) :
    retryFromHeaderA resp = some v ∨ retryFromHeaderB resp = some v ∨
      retryFromBody b = some v := by
  unfold extractRetryAfterMs at h
  rcases hA : retryFromHeaderA resp with _ | w <;> rw [hA] at h
  · rcases hB : retryFromHeaderB resp with _ | w <;> rw [hB] at h
    · exact Or.inr (Or.inr h)
    · exact Or.inr (Or.inl h)
  · exact Or.inl h

/-- Step (a) only yields positive values. -/
lemma retryFromHeaderA_pos (resp : Response) (v : Int)
    (h : retryFromHeaderA resp = some v) : 0 < v := by
  unfold retryFromHeaderA at h
  rcases hh : hget resp.headers "Retry-After" with _ | s <;> rw [hh] at h <;>
    dsimp only at h
  · exact absurd h (by simp)
  · by_cases he : s = ""
    · rw [if_pos he] at h; exact absurd h (by simp)
    · rw [if_neg he] at h
      rcases hf : jsParseFloat s with _ | d <;> rw [hf] at h <;> try dsimp only at h
      · exact absurd h (by simp)
      · by_cases hp : 0 < d.m
        · rw [if_pos hp] at h
          cases h
          exact ceilMul1000_pos d hp
        · rw [if_neg hp] at h; exact absurd h (by simp)

/-- Step (b) only yields positive values. -/
lemma retryFromHeaderB_pos (resp : Response) (v : Int)
    (h : retryFromHeaderB resp = some v) : 0 < v := by
  unfold retryFromHeaderB at h
  rcases hh : hget resp.headers "retry-after-ms" with _ | s <;> rw [hh] at h <;>
    dsimp only at h
  · exact absurd h (by simp)
  · by_cases he : s = ""
    · rw [if_pos he] at h; exact absurd h (by simp)
    · rw [if_neg he] at h
      rcases hf : jsParseInt s with _ | n <;> rw [hf] at h <;> try dsimp only at h
      · exact absurd h (by simp)
      · by_cases hp : 0 < n
        · rw [if_pos hp] at h; cases h; exact hp
        · rw [if_neg hp] at h; exact absurd h (by simp)

/-- Step (c) only yields positive values. -/
lemma retryFromBody_pos (b : Option Json) (v : Int)
    (h : retryFromBody b = some v) : 0 < v := by
  unfold retryFromBody at h
  rcases b with _ | body <;> try dsimp only at h
  · exact absurd h (by simp)
  · rcases he : jget body "error" with _ | err <;> rw [he] at h <;> try dsimp only at h
    · exact absurd h (by simp)
    · rcases hd : jget err "details" with _ | details <;> rw [hd] at h <;> try dsimp only at h
      · exact absurd h (by simp)
      · cases details with
        | arr ds =>
          try dsimp only at h
          rcases hf : ds.find? isRetryInfo with _ | ri <;> rw [hf] at h <;> try dsimp only at h
          · exact absurd h (by simp)
          · rcases hr : jget ri "retryDelay" with _ | delay <;> rw [hr] at h <;>
              try dsimp only at h
            · exact absurd h (by simp)
            · cases delay with
              | str ds' =>
                try dsimp only at h
                by_cases hde : ds' = ""
                · rw [if_pos hde] at h; exact absurd h (by simp)
                · rw [if_neg hde] at h
                  by_cases hm : ds'.data.getLast? = some 's' ∧ ds'.data.dropLast ≠ [] ∧
                      ds'.data.dropLast.all (fun c => c.isDigit ∨ c = '.')
                  · rw [if_pos hm] at h
                    rcases hg : jsParseFloat (String.mk ds'.data.dropLast) with _ | d <;>
                      rw [hg] at h <;> try dsimp only at h
                    · exact absurd h (by simp)
                    · by_cases hp : 0 < d.m
                      · rw [if_pos hp] at h
                        cases h
                        exact ceilMul1000_pos d hp
                      · rw [if_neg hp] at h; exact absurd h (by simp)
                  · rw [if_neg hm] at h; exact absurd h (by simp)
              | null => exact absurd h (by simp)
              | bool x => exact absurd h (by simp)
              | num x => exact absurd h (by simp)
              | arr x => exact absurd h (by simp)
              | obj x => exact absurd h (by simp)
        | null => exact absurd h (by simp)
        | bool x => exact absurd h (by simp)
        | num x => exact absurd h (by simp)
        | str x => exact absurd h (by simp)
        | obj x => exact absurd h (by simp)

/-- The chain only yields positive values. -/
lemma extractRetryAfterMs_pos (resp : Response) (b : Option Json) (v : Int)
    (h : extractRetryAfterMs resp b = some v) : 0 < v := by
  rcases extract_some_parts resp b v h with h' | h' | h'
  · exact retryFromHeaderA_pos resp v h'
  · exact retryFromHeaderB_pos resp v h'
  · exact retryFromBody_pos b v h'

/-- Setting a header makes it readable (case-insensitively). -/
lemma hget_hset_self (hs : HeaderList) (n v : String) :
    hget (hset hs n v) n = some v := by
  induction hs with
  | nil => simp [hset, hget]
  | cons kv rest ih =>
    by_cases hm : (asciiLower kv.1 == asciiLower n) = true
    · simp [hset, hget, hm]
    · rw [Bool.not_eq_true] at hm
      simp [hset, hget, hm, ih]

/-- Setting one header leaves others readable unchanged. -/
lemma hget_hset_other (hs : HeaderList) (n v n' : String)
    (hne : (asciiLower n' == asciiLower n) = false) :
    hget (hset hs n v) n' = hget hs n' := by
  induction hs with
  | nil =>
    have h2 : (asciiLower n == asciiLower n') = false := by
      rw [beq_eq_false_iff_ne] at hne ⊢
      exact fun h => hne h.symm
    simp [hset, hget, h2]
  | cons kv rest ih =>
    by_cases hm : (asciiLower kv.1 == asciiLower n) = true
    · have hkn : (asciiLower kv.1 == asciiLower n') = false := by
        rw [beq_iff_eq] at hm
        rw [beq_eq_false_iff_ne] at hne ⊢
        rw [hm]
        exact fun h => hne h.symm
      simp [hset, hget, hm, hkn]
    · rw [Bool.not_eq_true] at hm
      by_cases hk : (asciiLower kv.1 == asciiLower n') = true
      · simp [hset, hget, hm, hk]
      · rw [Bool.not_eq_true] at hk
        simp [hset, hget, hm, hk, ih]

/-- The two-pass retry-after computation of the error branch collapses to
the single full-body chain: when the full-body pass misses, the headers
missed too, and the wrapper pass can add nothing (no `details`). -/
lemma errorBranch_retryAfterMs (resp : Response) (twoPass : Bool) :
    (errorBranch resp twoPass).retryAfterMs =
      extractRetryAfterMs resp (some (parsedErrorBody resp.body)) := by
  unfold errorBranch
  rcases hfull : extractRetryAfterMs resp (some (parsedErrorBody resp.body)) with _ | v <;>
    simp only [hfull]
  · obtain ⟨hA, hB, -⟩ := extract_none_parts _ _ hfull
    cases twoPass
    · rfl
    · rw [if_pos rfl]
      rcases herr : parseErrorBody resp.body with _ | e
      · simp [extractRetryAfterMs, hA, hB, retryFromBody]
      · simp [extractRetryAfterMs, hA, hB, retryFromBody_errWrapper]

/-- When the error branch finds a retry value, it stamps both headers. -/
lemma errorBranch_headers (resp : Response) (twoPass : Bool) (v : Int)
    (h : extractRetryAfterMs resp (some (parsedErrorBody resp.body)) = some v) :
    hget (errorBranch resp twoPass).response.headers "Retry-After" =
        some (toString (ceilDiv v 1000)) ∧
    hget (errorBranch resp twoPass).response.headers "retry-after-ms" =
        some (toString v) := by
  have hv : ¬v = 0 := by
    have := extractRetryAfterMs_pos resp _ v h
    omega
  unfold errorBranch
  simp only [h]
  rw [if_pos hv]
  constructor
  · rw [hget_hset_other _ _ _ _ (by decide), hget_hset_self]
  · exact hget_hset_self _ _ _

/-- The concrete error response of the claim: status 429, `Retry-After: 2`
header, and an embedded `"5.123s"` RetryInfo in the body. -/
def c4Response : Response :=
  { status := 429
    statusText := "Too Many Requests"
    headers := [("Retry-After", "2"), ("content-type", "application/json")]
    body := "\x7b\"error\":\x7b\"message\":\"rate\",\"details\":[\x7b\"@type\":\"type.googleapis.com/google.rpc.RetryInfo\",\"retryDelay\":\"5.123s\"\x7d]\x7d\x7d" }

/-- A standalone RetryInfo error body. -/
def riExampleBody : Json :=
  .obj [("error", .obj [("details", .arr
    [.obj [("@type", .str retryInfoType), ("retryDelay", .str "5.123s")]])])]

/-- C4.  Retry-after extraction consults, in order and stopping at the first
positive hit: (a) the `Retry-After` header (seconds, ceiling to ms), (b) the
`retry-after-ms` header (integer ms), (c) a RetryInfo entry of
`error.details[]` with a `<number>s` delay, ceiling to ms (`"5.123s"` gives
5123).  On every error response the transformed result carries that value,
and when one is found both headers are stamped onto the translated response;
with both a `Retry-After: 2` header and an embedded `"5.123s"` RetryInfo the
header wins: 2000 ms. -/
theorem extractRetryAfterMs_characterization :
    (∀ resp b v, retryFromHeaderA resp = some v → extractRetryAfterMs resp b = some v) ∧
    (∀ resp b v, retryFromHeaderA resp = none → retryFromHeaderB resp = some v →
      extractRetryAfterMs resp b = some v) ∧
    (∀ resp b, retryFromHeaderA resp = none → retryFromHeaderB resp = none →
      extractRetryAfterMs resp b = retryFromBody b) ∧
    retryFromBody (some riExampleBody) = some 5123 ∧
    (∀ resp, resp.ok = false → (transformResponse resp).retryAfterMs =
      extractRetryAfterMs resp (some (parsedErrorBody resp.body))) ∧
    (∀ resp v, resp.ok = false →
      extractRetryAfterMs resp (some (parsedErrorBody resp.body)) = some v →
      hget (transformResponse resp).response.headers "Retry-After" =
          some (toString (ceilDiv v 1000)) ∧
      hget (transformResponse resp).response.headers "retry-after-ms" =
          some (toString v)) ∧
    (transformResponse c4Response).retryAfterMs = some 2000 ∧
    hget (transformResponse c4Response).response.headers "retry-after-ms" = some "2000" := by
  refine ⟨?_, ?_, ?_, by decide, ?_, ?_, by decide, by decide⟩
  · intro resp b v h
    unfold extractRetryAfterMs
    rw [h]
  · intro resp b v hA hB
    unfold extractRetryAfterMs
    rw [hA, hB]
  · intro resp b hA hB
    unfold extractRetryAfterMs
    rw [hA, hB]
  · intro resp hok
    unfold transformResponse
    dsimp only
    rw [if_pos (show ¬resp.ok = true by simp [hok])]
    exact errorBranch_retryAfterMs resp true
  · intro resp v hok h
    unfold transformResponse
    dsimp only
    rw [if_pos (show ¬resp.ok = true by simp [hok])]
    exact errorBranch_headers resp true v h

/-- C4 witness: the header chain applied at a concrete error response. -/
theorem extractRetryAfterMs_characterization_witness :
    extractRetryAfterMs ⟨429, "tm", [("Retry-After", "2")], ""⟩ (some (.obj [])) = some 2000 :=
  extractRetryAfterMs_characterization.1 ⟨429, "tm", [("Retry-After", "2")], ""⟩
    (some (.obj [])) 2000 (by decide)

/-- The retry condition of `attemptFetch` (`!response.ok &&
isRetryableError(status)`) holds exactly for statuses 0, 429 and 5xx. -/
lemma retryable_cond_iff (r : Response) :
    ((¬r.ok = true) ∧ isRetryableError r.status = true) ↔
      (r.status = 0 ∨ r.status = 429 ∨ (500 ≤ r.status ∧ r.status < 600)) := by
  unfold Response.ok isRetryableError
  simp only [decide_eq_true_eq]
  constructor
  · rintro ⟨hok, hr⟩
    split_ifs at hr with h1 h2 h3 <;> omega
  · intro h
    constructor
    · omega
    · split_ifs with h1 h2 h3
      all_goals first | rfl | (exfalso; omega)

/-- The three endpoints of the failover example (the first two answer 500,
the third 200). -/
def c3Resp500a : Response := ⟨500, "ISE", [], "err1"⟩

/-- See `c3Resp500a`. -/
def c3Resp500b : Response := ⟨500, "ISE", [], "err2"⟩

/-- See `c3Resp500a`. -/
def c3Resp200 : Response :=
  ⟨200, "OK", [("content-type", "application/json")], "\x7b\"response\":\x7b\"ok\":true\x7d\x7d"⟩

/-- Environment of the failover example: three endpoints, network keyed on
the transformed URL. -/
def c3Env : FetchEnv :=
  { endpoints := ["https://e1", "https://e2", "https://e3"]
    parseStoredToken := fun r => ⟨r, none, none⟩
    isTokenExpired := fun _ => false
    refreshAccessToken := fun _ => .error "unused"
    fetchProjectContext := fun _ => some "pid"
    normalizeTools := fun _ => none
    shouldIncludeThinking := fun _ => false
    extractHasThinking := fun _ => false
    transformResponseThinking := fun j => j
    net := fun tr =>
      if jsStartsWith tr.url "https://e1" then some c3Resp500a
      else if jsStartsWith tr.url "https://e2" then some c3Resp500b
      else some c3Resp200
    now := 0 }

/-- Token state of the failover example. -/
def c3Tokens : Tokens := ⟨"tok", "rt", 3600, 0⟩

/-- Request of the failover example (no body). -/
def c3Init : RequestInit := ⟨some "POST", none⟩

/-- URL of the failover example. -/
def c3Url : String := "https://g/models/m:generateContent"

/-- C3.  An endpoint attempt is retryable (yields `none`, moving the loop to
the next endpoint) exactly when the live call throws with no response or the
response status is 0, 429, or in [500, 600); every other response is
terminal and returned as-is.  Concretely, with three endpoints answering
500, 500, 200, the call returns the third endpoint's transformed response
after exactly 2 failover transitions (3 attempts). -/
theorem attemptFetch_classification :
    (∀ env endpoint url init tok pid mn, ¬parsedBody init = .null →
      (attemptFetch env endpoint url init tok pid mn = none ↔
        (env.net (attemptRequest env endpoint url init tok pid mn) = none ∨
         ∃ r, env.net (attemptRequest env endpoint url init tok pid mn) = some r ∧
           (r.status = 0 ∨ r.status = 429 ∨ (500 ≤ r.status ∧ r.status < 600))))) ∧
    (∀ env endpoint url init tok pid mn r, ¬parsedBody init = .null →
      env.net (attemptRequest env endpoint url init tok pid mn) = some r →
      ¬(r.status = 0 ∨ r.status = 429 ∨ (500 ≤ r.status ∧ r.status < 600)) →
      attemptFetch env endpoint url init tok pid mn = some r) ∧
    runMain c3Env c3Tokens ⟨"rt", none, none⟩ (some "pid") c3Url c3Init =
      transformResponseWithThinking c3Env c3Resp200 "" ∧
    (runEndpoints c3Env c3Url c3Init "tok" "pid" none (c3Env.endpoints.take 3)).2 = 2 + 1 := by
  refine ⟨?_, ?_, by decide, by decide⟩
  · intro env endpoint url init tok pid mn hnull
    unfold attemptFetch
    rcases hb : parsedBody init with _ | b | n | s | xs | kvs <;> try dsimp only
    · exact absurd hb hnull
    all_goals {
      rcases hn : env.net (attemptRequest env endpoint url init tok pid mn) with _ | r <;>
        try dsimp only
      · simp
      · by_cases hc : (¬r.ok = true) ∧ isRetryableError r.status = true
        · rw [if_pos hc]
          constructor
          · intro _
            exact Or.inr ⟨r, rfl, (retryable_cond_iff r).mp hc⟩
          · intro _
            rfl
        · rw [if_neg hc]
          constructor
          · intro h2
            exact Option.noConfusion h2
          · rintro (h2 | ⟨r2, hr2, hP⟩)
            · exact Option.noConfusion h2
            · injection hr2 with he
              subst he
              exact absurd ((retryable_cond_iff r).mpr hP) hc
    }
  · intro env endpoint url init tok pid mn r hnull hn hP
    unfold attemptFetch
    rcases hb : parsedBody init with _ | b | n | s | xs | kvs <;> try dsimp only
    · exact absurd hb hnull
    all_goals {
      rw [hn]
      try dsimp only
      rw [if_neg (fun hc => hP ((retryable_cond_iff r).mp hc))]
    }

/-- C3 witness: the classification applied at a concrete 500 response
(attempt retryable). -/
theorem attemptFetch_classification_witness :
    attemptFetch c3Env "https://e1" c3Url c3Init "tok" "pid" none = none :=
  (attemptFetch_classification.1 c3Env "https://e1" c3Url c3Init "tok" "pid" none
      (fun h => Json.noConfusion h)).mpr
    (Or.inr ⟨c3Resp500a, rfl, Or.inr (Or.inr (by decide))⟩)

/-- The loop makes at most one live attempt per listed endpoint. -/
lemma runEndpoints_count_le (env : FetchEnv) (url : String) (init : RequestInit)
    (tok pid : String) (mn : Option String) (l : List String) :
    (runEndpoints env url init tok pid mn l).2 ≤ l.length := by
  induction l with
  | nil => simp [runEndpoints]
  | cons e rest ih =>
    unfold runEndpoints
    rcases attemptFetch env e url init tok pid mn with _ | r
    · dsimp only
      simpa using Nat.add_le_add_right ih 1
    · simp

/-- When every listed endpoint is retryable, the loop exhausts the list:
`none`, after exactly one attempt per endpoint. -/
lemma runEndpoints_exhaust (env : FetchEnv) (url : String) (init : RequestInit)
    (tok pid : String) (mn : Option String) (l : List String)
    (H : ∀ e ∈ l, attemptFetch env e url init tok pid mn = none) :
    runEndpoints env url init tok pid mn l = (none, l.length) := by
  induction l with
  | nil => rfl
  | cons e rest ih =>
    unfold runEndpoints
    rw [H e (List.mem_cons_self e rest)]
    rw [ih (fun e' he' => H e' (List.mem_cons_of_mem e he'))]
    rfl

/-- An all-500 environment for the exhaustion witness. -/
def c2Env : FetchEnv :=
  { c3Env with net := fun _ => some ⟨500, "ISE", [], "down"⟩ }

/-- C2.  When every attempted endpoint is retryable the interceptor performs
at most `min(len(endpoints), 3)` live attempts — exactly one per capped
endpoint — and returns the synthesized response: status 503 with the JSON
body `{error:{message:"All Antigravity endpoints failed after N attempts",
type:"endpoint_failure", code:"all_endpoints_failed"}}` where `N` is the
number of attempts made (`min(len, 3)`); this path never throws (`runMain`
is the total, post-auth tail of the call).  The body shape is spelled out at
`N = 3`, the deployed endpoint-list length. -/
theorem interceptor_exhaustion :
    (∀ env url init tok pid mn,
      (runEndpoints env url init tok pid mn (env.endpoints.take 3)).2 ≤
        min env.endpoints.length 3) ∧
    (∀ env tokens refreshParts cachedPid url init,
      (∀ e ∈ env.endpoints.take 3,
        attemptFetch env e url init tokens.access_token
          (jsOr refreshParts.projectId
            (cachedPid.getD ((env.fetchProjectContext tokens.access_token).getD "")))
          (extractedModelName init) = none) →
      runMain env tokens refreshParts cachedPid url init =
        endpointFailureResponse (min env.endpoints.length 3) ∧
      (runEndpoints env url init tokens.access_token
          (jsOr refreshParts.projectId
            (cachedPid.getD ((env.fetchProjectContext tokens.access_token).getD "")))
          (extractedModelName init) (env.endpoints.take 3)).2 =
        min env.endpoints.length 3) ∧
    (∀ n, (endpointFailureResponse n).status = 503) ∧
    endpointFailureBody 3 =
      "\x7b\"error\":\x7b\"message\":\"All Antigravity endpoints failed after 3 attempts\",\"type\":\"endpoint_failure\",\"code\":\"all_endpoints_failed\"\x7d\x7d" := by
  refine ⟨?_, ?_, fun n => rfl, by decide⟩
  · intro env url init tok pid mn
    have h := runEndpoints_count_le env url init tok pid mn (env.endpoints.take 3)
    rwa [List.length_take, Nat.min_comm] at h
  · intro env tokens refreshParts cachedPid url init H
    rcases cachedPid with _ | p
    all_goals {
      simp only [Option.getD_none, Option.getD_some] at H ⊢
      have hex := runEndpoints_exhaust env url init tokens.access_token _
        (extractedModelName init) (env.endpoints.take 3) H
      constructor
      · unfold runMain
        dsimp only
        rw [hex]
      · rw [hex, List.length_take, Nat.min_comm]
    }

/-- C2 witness: three endpoints, all answering 500, produce the synthesized
503 after 3 attempts. -/
theorem interceptor_exhaustion_witness :
    runMain c2Env c3Tokens ⟨"rt", none, none⟩ (some "pid") c3Url c3Init =
      endpointFailureResponse (min c2Env.endpoints.length 3) :=
  ((interceptor_exhaustion.2.1 c2Env c3Tokens ⟨"rt", none, none⟩ (some "pid") c3Url c3Init)
    (by decide)).1

/-- With credentials present and a succeeding refresh routine, one
interceptor call always returns a response. -/
lemma interceptOk (env : FetchEnv) (cachedT : Option Tokens) (cachedPid : Option String)
    (auth : Auth) (url : String) (init : RequestInit)
    (ha : strTruthy auth.access = true) (hr : strTruthy auth.refresh = true)
    (hok : ∀ rt, ∃ nt, env.refreshAccessToken rt = Except.ok nt) :
    ∃ r, interceptCall env cachedT cachedPid auth url init = Except.ok r := by
  unfold interceptCall
  have hcond : ¬(¬strTruthy auth.access = true ∨ ¬strTruthy auth.refresh = true) := by
    rintro (h | h)
    · exact h ha
    · exact h hr
  rw [if_neg hcond]
  dsimp only
  by_cases hexp : env.isTokenExpired
      (buildTokens cachedT auth (env.parseStoredToken (auth.refresh.getD "")) env.now) = true
  · rw [if_pos hexp]
    obtain ⟨nt, hnt⟩ := hok ((env.parseStoredToken (auth.refresh.getD "")).refreshToken)
    rw [hnt]
    exact ⟨_, rfl⟩
  · rw [if_neg hexp]
    exact ⟨_, rfl⟩

/-- Any thrown error of one interceptor call is the missing-credentials
error or a token-refresh failure. -/
lemma interceptErr (env : FetchEnv) (cachedT : Option Tokens) (cachedPid : Option String)
    (auth : Auth) (url : String) (init : RequestInit) (e : String)
    (h : interceptCall env cachedT cachedPid auth url init = Except.error e) :
    e = authMissingMsg ∨ ∃ c, e = refreshFailedMsg c := by
  unfold interceptCall at h
  by_cases hcond : (¬strTruthy auth.access = true ∨ ¬strTruthy auth.refresh = true)
  · rw [if_pos hcond] at h
    injection h with he
    exact Or.inl he.symm
  · rw [if_neg hcond] at h
    dsimp only at h
    by_cases hexp : env.isTokenExpired
        (buildTokens cachedT auth (env.parseStoredToken (auth.refresh.getD "")) env.now) = true
    · rw [if_pos hexp] at h
      rcases hnt : env.refreshAccessToken
          ((env.parseStoredToken (auth.refresh.getD "")).refreshToken) with e' | nt <;>
        rw [hnt] at h <;> try dsimp only at h
      · injection h with he
        exact Or.inr ⟨e', he.symm⟩
      · exact Except.noConfusion h
    · rw [if_neg hexp] at h
      exact Except.noConfusion h

/-- An environment whose refresh routine succeeds. -/
def c1Env : FetchEnv :=
  { c3Env with refreshAccessToken := fun _ => .ok ⟨"a2", "r2", 3600⟩ }

/-- C1.  With both credentials present (nonempty) and a token-refresh
routine that does not fail, the intercepting call always returns a `Response`
and never throws; dually, the only two errors any call can raise are the
missing-credentials error (thrown before any network activity) and the
token-refresh failure — transport and transform failures never escape
(`runMain`, the post-auth body of the call, is a total function into
`Response`). -/
theorem interceptCall_error_policy :
    (∀ env cachedT cachedPid auth url init,
      strTruthy auth.access = true → strTruthy auth.refresh = true →
      (∀ rt, ∃ nt, env.refreshAccessToken rt = Except.ok nt) →
      ∃ r, interceptCall env cachedT cachedPid auth url init = Except.ok r) ∧
    (∀ env cachedT cachedPid auth url init e,
      interceptCall env cachedT cachedPid auth url init = Except.error e →
      e = authMissingMsg ∨ ∃ c, e = refreshFailedMsg c) :=
  ⟨fun env cT cP a u i ha hr hok => interceptOk env cT cP a u i ha hr hok,
   fun env cT cP a u i e h => interceptErr env cT cP a u i e h⟩

/-- C1 witness: a concrete call with valid credentials returns a response. -/
theorem interceptCall_error_policy_witness :
    ∃ r, interceptCall c1Env none none ⟨some "tok", some "ref", none⟩ "u" ⟨some "POST", none⟩ =
      Except.ok r :=
  interceptCall_error_policy.1 c1Env none none ⟨some "tok", some "ref", none⟩ "u"
    ⟨some "POST", none⟩ (by decide) (by decide) (fun _ => ⟨⟨"a2", "r2", 3600⟩, rfl⟩)

/-- A request whose string body is not valid JSON. -/
def c10Init : RequestInit := ⟨some "POST", some "not json \x7b"⟩

/-- C10.  A string `init.body` that is not valid JSON raises no exception:
the attempt-level parse falls back to `{}`, the interceptor's model
extraction yields nothing, and every endpoint attempt sends the envelope
`{project: projectId, model: m, request: {}}` with `m` resolved from the URL
pattern or the fixed fallback. -/
theorem invalid_body_attempts :
    (∀ init s, init.body = some s → jsonParse s = none → parsedBody init = .obj []) ∧
    (∀ init s, init.body = some s → jsonParse s = none → extractedModelName init = none) ∧
    (∀ env endpoint url init s tok pid, init.body = some s → jsonParse s = none →
      (attemptRequest env endpoint url init tok pid (extractedModelName init)).body =
        ⟨pid, jsOr (extractModelFromUrl url) "gemini-3-pro-preview", .obj []⟩) ∧
    (∀ env cachedT cachedPid auth url init s, init.body = some s → jsonParse s = none →
      strTruthy auth.access = true → strTruthy auth.refresh = true →
      (∀ rt, ∃ nt, env.refreshAccessToken rt = Except.ok nt) →
      ∃ r, interceptCall env cachedT cachedPid auth url init = Except.ok r) := by
  have hpb : ∀ (init : RequestInit) s, init.body = some s → jsonParse s = none →
      parsedBody init = .obj [] := by
    intro init s hb hp
    simp [parsedBody, hb, hp]
  refine ⟨hpb, ?_, ?_, ?_⟩
  · intro init s hb hp
    simp [extractedModelName, hb, hp]
  · intro env endpoint url init s tok pid hb hp
    have hmn : extractedModelName init = none := by simp [extractedModelName, hb, hp]
    rw [hmn]
    unfold attemptRequest
    rw [hpb init s hb hp]
    simp [jget, alookup, transformRequest, wrapRequestBody, jsSpread, jsDelete,
      extractModelFromBody, jsOr]
  · intro env cachedT cachedPid auth url init s hb hp ha hr hok
    exact interceptOk env cachedT cachedPid auth url init ha hr hok

/-- C10 witness: the envelope built for an unparseable body at a concrete
endpoint and URL. -/
theorem invalid_body_attempts_witness :
    (attemptRequest c3Env "https://e1" c3Url c10Init "tok" "pid"
        (extractedModelName c10Init)).body =
      ⟨"pid", jsOr (extractModelFromUrl c3Url) "gemini-3-pro-preview", .obj []⟩ :=
  invalid_body_attempts.2.2.1 c3Env "https://e1" c3Url c10Init "not json \x7b" "tok" "pid"
    rfl rfl

end Antigravity
